import Mathlib

/-!
Verification of the Decawave TDOA/MPC repository.

The TDOA extended Kalman filter (class `TDOA`, file `tdoa.cpp`) and the model
predictive controller (`MPC.cpp`) are embedded shallowly.  Machine floats are
modelled as elements of a linear ordered field (instantiated at `ℝ` or `ℚ` in
the theorems); the external math library calls (`sqrtf`, `CppAD::cos`, ...)
are passed to the definitions as function arguments and instantiated with the
corresponding real functions in the theorems.
-/

namespace Decawave

/-- `vec3d_t` from the source: a 3D position. -/
@[ext]
structure Vec3 (α : Type) where
  x : α
  y : α
  z : α

/-- Modelled from the spec: `STATE_DIM` is defined in the header `tdoa.h`, which is
not among the source files; spec section 3 fixes the state as the 6-dimensional
vector `[x, y, z, vx, vy, vz]`. -/
def STATE_DIM : ℕ := 6

/-- Modelled from the spec: index of `x` in the state layout `[x, y, z, vx, vy, vz]`
(spec section 3); the numeric constants live in the missing header `tdoa.h`. -/
def STATE_X : Fin 6 := 0

/-- Modelled from the spec: index of `y` in the state layout (spec section 3). -/
def STATE_Y : Fin 6 := 1

/-- Modelled from the spec: index of `z` in the state layout (spec section 3). -/
def STATE_Z : Fin 6 := 2

/-- Modelled from the spec: index of `vx` in the state layout (spec section 3). -/
def STATE_VX : Fin 6 := 3

/-- Modelled from the spec: index of `vy` in the state layout (spec section 3). -/
def STATE_VY : Fin 6 := 4

/-- Modelled from the spec: index of `vz` in the state layout (spec section 3). -/
def STATE_VZ : Fin 6 := 5

/-- Modelled from the spec: `MAX_NR_ANCHORS` is defined in the missing header
`tdoa.h`.  The spec bounds anchor indices by `[0, MAX_ANCHORS)` and hard-codes four
survey anchors, so the model uses 4; the claims below do not depend on the value. -/
def MAX_NR_ANCHORS : ℤ := 4

/-- The member state of class `TDOA`.  The C array
`vec3d_t anchorPosition[MAX_NR_ANCHORS]` is modelled as a total map on `ℤ`: cells
outside `[0, MAX_NR_ANCHORS)` stand for the memory adjacent to the array, so that an
out-of-bounds store is visible in the model. -/
structure TDOAState (α : Type) where
  tdoaCount : ℕ
  nr_states : ℕ
  S : Fin 6 → α
  P : Matrix (Fin 6) (Fin 6) α
  A : Matrix (Fin 6) (Fin 6) α
  anchorPosition : ℤ → Vec3 α
  stdDev : α

variable {α : Type} [LinearOrderedField α]

/-- `TDOA::initAnchorPos`: hard-coded survey positions for anchors 0..3. -/
def initAnchorPos (st : TDOAState α) : TDOAState α :=
  { st with anchorPosition := fun i =>
      if i = 0 then ⟨4.628, 0.600, 1.312⟩
      else if i = 1 then ⟨4.628, 3.810, 1.297⟩
      else if i = 2 then ⟨0.043, 4.210, 1.302⟩
      else if i = 3 then ⟨0.123, 1.673, 1.903⟩
      else st.anchorPosition i }

/-- The constructor `TDOA::TDOA`: zeroed state with `x = 2`, `y = 2.6`, diagonal
covariance (`powf(100,2)` for x and y, `powf(1,2)` for z, `powf(0.01,2)` for the
velocities), identity transition matrix with `0.016` position/velocity coupling,
hard-coded anchors and `stdDev = 0.15`.  Array cells not written by
`initAnchorPos` are modelled as zero. -/
def TDOA.init : TDOAState α :=
  initAnchorPos
    { tdoaCount := 0
      nr_states := STATE_DIM
      S := fun i => if i = STATE_X then 2 else if i = STATE_Y then 2.6 else 0
      P := Matrix.of fun i j =>
        if i = STATE_X ∧ j = STATE_X then (100 : α) ^ 2
        else if i = STATE_Y ∧ j = STATE_Y then (100 : α) ^ 2
        else if i = STATE_Z ∧ j = STATE_Z then (1 : α) ^ 2
        else if i = STATE_VX ∧ j = STATE_VX then (0.01 : α) ^ 2
        else if i = STATE_VY ∧ j = STATE_VY then (0.01 : α) ^ 2
        else if i = STATE_VZ ∧ j = STATE_VZ then (0.01 : α) ^ 2
        else 0
      A := Matrix.of fun i j =>
        if i = STATE_X ∧ j = STATE_VX then 0.016
        else if i = STATE_Y ∧ j = STATE_VY then 0.016
        else if i = STATE_Z ∧ j = STATE_VZ then 0.016
        else if i = j then 1 else 0
      anchorPosition := fun _ => ⟨0, 0, 0⟩
      stdDev := 0.15 }

/-- `TDOA::setAncPosition(int, vec3d_t)`: the guard rejects `anc_num < 0` and
`anc_num > MAX_NR_ANCHORS`, exactly as the source writes it. -/
def setAncPosition (st : TDOAState α) (anc_num : ℤ) (anc_pos : Vec3 α) : TDOAState α :=
  if anc_num < 0 ∨ anc_num > MAX_NR_ANCHORS then st
  else { st with anchorPosition := fun i =>
    if i = anc_num then anc_pos else st.anchorPosition i }

/-- `TDOA::getLocation`: the position components of the state. -/
def getLocation (st : TDOAState α) : Vec3 α :=
  ⟨st.S STATE_X, st.S STATE_Y, st.S STATE_Z⟩

/-- `TDOA::stateEstimatorScalarUpdate(H, error, stdMeasNoise)`: the generic Kalman
scalar measurement update, lines 126-152 of the source. -/
def stateEstimatorScalarUpdate (st : TDOAState α) (H : Fin 6 → α)
    (error stdMeasNoise : α) : TDOAState α :=
  let PHTm : Fin 6 → α := st.P.mulVec H
  let R : α := stdMeasNoise * stdMeasNoise
  let HPHR : α := Matrix.dotProduct H PHTm + R
  let K : Fin 6 → α := fun i => PHTm i / HPHR
  { st with
    S := fun i => st.S i + K i * error
    P := (1 - Matrix.vecMulVec K H) * st.P }

/-- `TDOA::stateEstimatorPredict`: covariance-only propagation. -/
def stateEstimatorPredict (st : TDOAState α) : TDOAState α :=
  { st with P := st.A * st.P * st.A.transpose }

/-- The argument of `sqrtf` in `scalarTDOADistUpdate`: squared Euclidean distance
from the current position estimate to the stored position of anchor `a`. -/
def tdoaSqDist (st : TDOAState α) (a : ℤ) : α :=
  (st.S STATE_X - (st.anchorPosition a).x) ^ 2
    + (st.S STATE_Y - (st.anchorPosition a).y) ^ 2
    + (st.S STATE_Z - (st.anchorPosition a).z) ^ 2

/-- `d1` (for `a = An`) and `d0` (for `a = Ar`) in `scalarTDOADistUpdate`; `sqrtf`
is the external C library square root. -/
def tdoaDist (sqrtf : α → α) (st : TDOAState α) (a : ℤ) : α :=
  sqrtf (tdoaSqDist st a)

/-- The observation row `h` built by `scalarTDOADistUpdate`: only the position
columns are populated. -/
def tdoaJacobian (sqrtf : α → α) (st : TDOAState α) (Ar An : ℤ) : Fin 6 → α :=
  let d1 := tdoaDist sqrtf st An
  let d0 := tdoaDist sqrtf st Ar
  fun i =>
    if i = STATE_X then
      (st.S STATE_X - (st.anchorPosition An).x) / d1
        - (st.S STATE_X - (st.anchorPosition Ar).x) / d0
    else if i = STATE_Y then
      (st.S STATE_Y - (st.anchorPosition An).y) / d1
        - (st.S STATE_Y - (st.anchorPosition Ar).y) / d0
    else if i = STATE_Z then
      (st.S STATE_Z - (st.anchorPosition An).z) / d1
        - (st.S STATE_Z - (st.anchorPosition Ar).z) / d0
    else 0

/-- `TDOA::scalarTDOADistUpdate(Ar, An, distanceDiff)`: measurement prediction,
residual formation and one generic scalar update.  The `uint8_t` anchor ids are
modelled as naturals, cast into the anchor map. -/
def scalarTDOADistUpdate (sqrtf : α → α) (st : TDOAState α) (Ar An : ℕ)
    (distanceDiff : α) : TDOAState α :=
  let measurement := distanceDiff
  let d1 := tdoaDist sqrtf st (An : ℤ)
  let d0 := tdoaDist sqrtf st (Ar : ℤ)
  let predicted := d1 - d0
  let error := measurement - predicted
  stateEstimatorScalarUpdate st (tdoaJacobian sqrtf st (Ar : ℤ) (An : ℤ)) error st.stdDev

/-- A simple concrete estimator state (zero mean, zero covariance, identity
transition, unit noise) used to instantiate the theorems below. -/
def W0 : TDOAState ℝ :=
  { tdoaCount := 0
    nr_states := 6
    S := fun _ => 0
    P := 0
    A := 1
    anchorPosition := fun _ => ⟨0, 0, 0⟩
    stdDev := 1 }

/-! ## The model predictive controller, `MPC.cpp` -/

/-- Horizon length, `size_t N = 10`. -/
def N : ℕ := 10

/-- Timestep, `double dt = 0.1`. -/
def dt (α : Type) [LinearOrderedField α] : α := 0.1

/-- Rear-axle reference length, `const double lr = 0.3`. -/
def lr (α : Type) [LinearOrderedField α] : α := 0.3

/-- Steering bound, `const double dir_bound = 0.35`. -/
def dir_bound (α : Type) [LinearOrderedField α] : α := 0.35

/-- Velocity bound, `const double vel_bound = 3.0`. -/
def vel_bound (α : Type) [LinearOrderedField α] : α := 3.0

/-- Offset of the x block in the flat decision vector. -/
def x_start : ℕ := 0

/-- Offset of the y block. -/
def y_start : ℕ := x_start + N

/-- Offset of the heading block. -/
def psi_start : ℕ := y_start + N

/-- Offset of the cross-track-error block. -/
def cte_start : ℕ := psi_start + N

/-- Offset of the heading-error block. -/
def epsi_start : ℕ := cte_start + N

/-- Offset of the speed block. -/
def v_start : ℕ := epsi_start + N

/-- Offset of the steering block. -/
def delta_start : ℕ := v_start + N - 1

/-- `n_vars = N * 5 + (N - 1) * 2` in `MPC::Solve`. -/
def n_vars : ℕ := N * 5 + (N - 1) * 2

/-- `n_constraints = N * 5` in `MPC::Solve`. -/
def n_constraints : ℕ := N * 5

/-- The degree-3 reference polynomial `f0` evaluated as the source writes it
(`coeffs[0] + coeffs[1]*x0 + coeffs[2]*x0_2 + coeffs[3]*x0_3`). -/
def polyF (coeffs : Fin 4 → α) (x0 : α) : α :=
  coeffs 0 + coeffs 1 * x0 + coeffs 2 * (x0 * x0) + coeffs 3 * (x0 * x0 * x0)

/-- `psides0`: the desired heading `atan` of the slope of the reference polynomial;
`atanf` is the external `CppAD::atan`. -/
def psides (atanf : α → α) (coeffs : Fin 4 → α) (x0 : α) : α :=
  atanf (coeffs 1 + 2 * coeffs 2 * x0 + 3 * coeffs 3 * (x0 * x0))

/-- `fg[1 + x_start + t]` for `t ≥ 1` (source line 108). -/
def fgX (cosf : α → α) (vars : ℕ → α) (t : ℕ) : α :=
  vars (x_start + t)
    - (vars (x_start + t - 1)
        + vars (v_start + t - 1) * cosf (vars (psi_start + t - 1)) * dt α)

/-- `fg[1 + y_start + t]` for `t ≥ 1` (source line 109). -/
def fgY (sinf : α → α) (vars : ℕ → α) (t : ℕ) : α :=
  vars (y_start + t)
    - (vars (y_start + t - 1)
        + vars (v_start + t - 1) * sinf (vars (psi_start + t - 1)) * dt α)

/-- `fg[1 + psi_start + t]` for `t ≥ 1` (source line 110). -/
def fgPsi (tanf : α → α) (vars : ℕ → α) (t : ℕ) : α :=
  vars (psi_start + t)
    - (vars (psi_start + t - 1)
        + vars (v_start + t - 1) * tanf (vars (delta_start + t - 1)) * dt α / lr α)

/-- `fg[1 + cte_start + t]` for `t ≥ 1` (source line 111). -/
def fgCte (sinf : α → α) (coeffs : Fin 4 → α) (vars : ℕ → α) (t : ℕ) : α :=
  vars (cte_start + t)
    - ((polyF coeffs (vars (x_start + t - 1)) - vars (y_start + t - 1))
        + vars (v_start + t - 1) * sinf (vars (epsi_start + t - 1)) * dt α)

/-- `fg[1 + epsi_start + t]` for `t ≥ 1` (source line 112). -/
def fgEpsi (atanf : α → α) (coeffs : Fin 4 → α) (vars : ℕ → α) (t : ℕ) : α :=
  vars (epsi_start + t)
    - ((vars (psi_start + t - 1) - psides atanf coeffs (vars (x_start + t - 1)))
        + vars (v_start + t - 1) * vars (delta_start + t - 1) / lr α * dt α)

/-- The cost entry `fg[0]` of `FG_eval::operator()`: tracking, control-effort and
smoothness terms with the source's weights. -/
def fgCost (vars : ℕ → α) : α :=
  (Finset.range N).sum (fun t =>
      1 * vars (cte_start + t) ^ 2 + 1 * vars (epsi_start + t) ^ 2)
    + (Finset.range (N - 1)).sum (fun t =>
      200 * vars (delta_start + t) ^ 2 + 50 * vars (v_start + t) ^ 2)
    + (Finset.range (N - 2)).sum (fun t =>
      250 * (vars (delta_start + t + 1) - vars (delta_start + t)) ^ 2
        + 200 * (vars (v_start + t + 1) - vars (v_start + t)) ^ 2)

/-- `FG_eval::operator()`: the vector `fg` as a function of the output index.  Entry
0 is the cost; entry `1 + k` for `k < 5N` is the constraint for the decision
variable `k` (initial-state pin at `t = 0`, dynamics residual for `t ≥ 1`); indices
the source never writes are modelled as 0.  `cosf`, `sinf`, `tanf` and `atanf` are
the external CppAD transcendental functions. -/
def FG_eval (cosf sinf tanf atanf : α → α) (coeffs : Fin 4 → α) (vars : ℕ → α)
    (idx : ℕ) : α :=
  if idx = 0 then fgCost vars
  else
    let k := idx - 1
    if k < y_start then
      if k = x_start then vars x_start else fgX cosf vars (k - x_start)
    else if k < psi_start then
      if k = y_start then vars y_start else fgY sinf vars (k - y_start)
    else if k < cte_start then
      if k = psi_start then vars psi_start else fgPsi tanf vars (k - psi_start)
    else if k < epsi_start then
      if k = cte_start then vars cte_start else fgCte sinf coeffs vars (k - cte_start)
    else if k < v_start then
      if k = epsi_start then vars epsi_start
      else fgEpsi atanf coeffs vars (k - epsi_start)
    else 0

/-- Return status of the external NLP solver (`CppAD::ipopt::solve_result::status`);
the solver itself is outside the core, per the spec an opaque capability. -/
inductive SolveStatus
  | not_defined
  | success
  | maxiter_exceeded
  | stop_at_tiny_step
  | stop_at_acceptable_point
  | local_infeasibility
  | user_requested_stop
  | feasible_point_found
  | diverging_iterates
  | restoration_failure
  | error_in_step_computation
  | invalid_number_detected
  | internal_error
deriving DecidableEq

/-- `CppAD::ipopt::solve_result`: the status together with the solution vector. -/
structure SolveResult (α : Type) where
  status : SolveStatus
  x : ℕ → α

/-- What `MPC::Solve` produces: the returned actuation list and the `x_vals` /
`y_vals` member vectors filled from the predicted trajectory. -/
structure MPCOut (α : Type) where
  result : List α
  x_vals : List α
  y_vals : List α

/-- `MPC::Solve(state, coeffs)`, with the external IPOPT call abstracted as a
function `solver` from the assembled problem data (objective/constraint function,
initial point, variable bounds, constraint bounds) to a `SolveResult`.  The source
computes `ok` from the returned status (line 223) but never consults it: the
actuation pair and the predicted trajectory are extracted from `solution.x`
unconditionally. -/
def MPC_Solve (cosf sinf tanf atanf : α → α)
    (solver : ((ℕ → α) → ℕ → α) → (ℕ → α) → (ℕ → α) → (ℕ → α) → (ℕ → α) →
      (ℕ → α) → SolveResult α)
    (state : Fin 5 → α) (coeffs : Fin 4 → α) : MPCOut α :=
  let x := state 0
  let y := state 1
  let psi := state 2
  let cte := state 3
  let epsi := state 4
  let vars : ℕ → α := fun i =>
    if i = x_start then x
    else if i = y_start then y
    else if i = psi_start then psi
    else if i = cte_start then cte
    else if i = epsi_start then epsi
    else 0
  let vars_lowerbound : ℕ → α := fun i =>
    if i < v_start then -1.0e19
    else if i < delta_start then -vel_bound α
    else if i < n_vars then -dir_bound α
    else 0
  let vars_upperbound : ℕ → α := fun i =>
    if i < v_start then 1.0e19
    else if i < delta_start then vel_bound α
    else if i < n_vars then dir_bound α
    else 0
  let constraints_lowerbound : ℕ → α := fun i =>
    if i = x_start then x
    else if i = y_start then y
    else if i = psi_start then psi
    else if i = cte_start then cte
    else if i = epsi_start then epsi
    else 0
  let constraints_upperbound : ℕ → α := constraints_lowerbound
  let solution := solver (fun v => FG_eval cosf sinf tanf atanf coeffs v) vars
    vars_lowerbound vars_upperbound constraints_lowerbound constraints_upperbound
  let _ok : Bool := decide (solution.status = SolveStatus.success)
  { result := [solution.x delta_start, solution.x v_start]
    x_vals := (List.range (N - 1)).map (fun i => solution.x (x_start + (i + 1)))
    y_vals := (List.range (N - 1)).map (fun i => solution.x (y_start + (i + 1))) }

/-! ## Helper lemmas -/

/-- A real positive-semidefinite matrix is symmetric. -/
theorem posSemidef_transpose_eq {M : Matrix (Fin 6) (Fin 6) ℝ} (h : M.PosSemidef) :
    M.transpose = M := by
  rw [← Matrix.conjTranspose_eq_transpose_of_trivial]
  exact h.isHermitian

/-- The quadratic form of a real positive-semidefinite matrix is nonnegative. -/
theorem psd_dotProduct_nonneg {M : Matrix (Fin 6) (Fin 6) ℝ} (h : M.PosSemidef)
    (x : Fin 6 → ℝ) : 0 ≤ Matrix.dotProduct x (M.mulVec x) := by
  simpa using h.2 x

/-- The diagonal of a real positive-semidefinite matrix is nonnegative. -/
theorem psd_diag_nonneg {M : Matrix (Fin 6) (Fin 6) ℝ} (h : M.PosSemidef) (i : Fin 6) :
    0 ≤ M i i := by
  have h1 := psd_dotProduct_nonneg h (Pi.single i 1)
  simpa [Matrix.mulVec_single, Matrix.single_dotProduct] using h1

/-! ## Theorems for the claims -/

/-- C5: `stateEstimatorPredict` replaces the covariance by `A·P·Aᵀ` and leaves the
state vector, the transition matrix, the anchor positions and the noise standard
deviation unchanged; in particular the state mean is not advanced. -/
theorem predict_spec (st : TDOAState ℝ) :
    stateEstimatorPredict st = { st with P := st.A * st.P * st.A.transpose }
      ∧ (stateEstimatorPredict st).S = st.S
      ∧ (stateEstimatorPredict st).A = st.A
      ∧ (stateEstimatorPredict st).anchorPosition = st.anchorPosition
      ∧ (stateEstimatorPredict st).stdDev = st.stdDev :=
  ⟨rfl, rfl, rfl, rfl, rfl⟩

/-- C1: whenever the innovation variance `H·P·Hᵀ + σ²` is nonzero, the generic
scalar update replaces the state by `S + K·r` and the covariance by `(I − K·H)·P`
with `K = P·Hᵀ / (H·P·Hᵀ + σ²)`, and changes no other estimator field (the
structure-update form of the right-hand side fixes every other field). -/
theorem scalarUpdate_spec (st : TDOAState ℝ) (H : Fin 6 → ℝ) (r σ : ℝ)
    (hS : Matrix.dotProduct H (st.P.mulVec H) + σ ^ 2 ≠ 0) :
    stateEstimatorScalarUpdate st H r σ =
      { st with
        S := fun i =>
          st.S i
            + st.P.mulVec H i / (Matrix.dotProduct H (st.P.mulVec H) + σ ^ 2) * r
        P := (1 - Matrix.vecMulVec
              (fun i =>
                st.P.mulVec H i / (Matrix.dotProduct H (st.P.mulVec H) + σ ^ 2)) H)
            * st.P } := by
  rw [pow_two σ]
  rfl

/-- Witness for C1 at a concrete state with zero covariance and unit noise. -/
theorem scalarUpdate_spec_witness :
    (Matrix.dotProduct (fun _ => 1 : Fin 6 → ℝ) (W0.P.mulVec fun _ => 1) + (1 : ℝ) ^ 2 ≠ 0)
      ∧ stateEstimatorScalarUpdate W0 (fun _ => 1) 5 1 =
        { W0 with
          S := fun i =>
            W0.S i
              + W0.P.mulVec (fun _ => 1) i /
                  (Matrix.dotProduct (fun _ => 1 : Fin 6 → ℝ) (W0.P.mulVec fun _ => 1)
                    + (1 : ℝ) ^ 2) * 5
          P := (1 - Matrix.vecMulVec
                (fun i =>
                  W0.P.mulVec (fun _ => 1) i /
                    (Matrix.dotProduct (fun _ => 1 : Fin 6 → ℝ) (W0.P.mulVec fun _ => 1)
                      + (1 : ℝ) ^ 2)) fun _ => 1)
              * W0.P } := by
  have hS : Matrix.dotProduct (fun _ => 1 : Fin 6 → ℝ) (W0.P.mulVec fun _ => 1)
      + (1 : ℝ) ^ 2 ≠ 0 := by
    show Matrix.dotProduct (fun _ => 1 : Fin 6 → ℝ)
        ((0 : Matrix (Fin 6) (Fin 6) ℝ).mulVec fun _ => 1) + (1 : ℝ) ^ 2 ≠ 0
    rw [Matrix.zero_mulVec, Matrix.dotProduct_zero]
    norm_num
  exact ⟨hS, scalarUpdate_spec W0 (fun _ => 1) 5 1 hS⟩

/-- C7 counterexample: the constructor sets the z-position variance to
`powf(1,2) = 1`, not `100²` as the claim states for every position component. -/
theorem init_z_variance_counterexample :
    (TDOA.init : TDOAState ℝ).P STATE_Z STATE_Z = 1 ∧ (1 : ℝ) ≠ 100 ^ 2 := by
  constructor
  · show (1 : ℝ) ^ 2 = 1
    norm_num
  · norm_num

/-- The constructor's covariance written as a diagonal matrix. -/
theorem init_P_eq_diagonal :
    (TDOA.init : TDOAState ℝ).P
      = Matrix.diagonal ![100 ^ 2, 100 ^ 2, 1 ^ 2, 0.01 ^ 2, 0.01 ^ 2, 0.01 ^ 2] := by
  funext i j
  fin_cases i <;> fin_cases j <;> rfl

/-- C7 amended: the constructor sets the state to `(2, 2.6, 0, 0, 0, 0)`, the
covariance to the diagonal with variances `100²` for the x and y positions, `1` for
the z position and `0.01²` for the velocities, the transition matrix to the identity
with `0.016` position-to-velocity coupling, and the noise standard deviation to
`0.15`. -/
theorem init_spec :
    (TDOA.init : TDOAState ℝ).S = ![2, 2.6, 0, 0, 0, 0]
      ∧ (TDOA.init : TDOAState ℝ).P
        = Matrix.diagonal ![100 ^ 2, 100 ^ 2, 1 ^ 2, 0.01 ^ 2, 0.01 ^ 2, 0.01 ^ 2]
      ∧ (TDOA.init : TDOAState ℝ).A
        = Matrix.of ![![1, 0, 0, 0.016, 0, 0], ![0, 1, 0, 0, 0.016, 0],
            ![0, 0, 1, 0, 0, 0.016], ![0, 0, 0, 1, 0, 0], ![0, 0, 0, 0, 1, 0],
            ![0, 0, 0, 0, 0, 1]]
      ∧ (TDOA.init : TDOAState ℝ).stdDev = 0.15 := by
  refine ⟨?_, init_P_eq_diagonal, ?_, rfl⟩
  · funext i
    fin_cases i <;> rfl
  · funext i j
    fin_cases i <;> fin_cases j <;> rfl

/-- C6: a `setAncPosition` request at index `MAX_NR_ANCHORS` — outside the valid
range `[0, MAX_NR_ANCHORS)` — is not ignored: the guard `anc_num > MAX_NR_ANCHORS`
lets it through and the store happens (one cell past the array in the C code). -/
theorem setAncPosition_out_of_range_stores :
    (setAncPosition (TDOA.init : TDOAState ℝ) MAX_NR_ANCHORS
        ⟨1, 1, 1⟩).anchorPosition MAX_NR_ANCHORS = ⟨1, 1, 1⟩
      ∧ (TDOA.init : TDOAState ℝ).anchorPosition MAX_NR_ANCHORS = ⟨0, 0, 0⟩
      ∧ ((⟨1, 1, 1⟩ : Vec3 ℝ) ≠ ⟨0, 0, 0⟩) := by
  refine ⟨?_, ?_, ?_⟩
  · rw [setAncPosition, if_neg (by norm_num [MAX_NR_ANCHORS])]
    simp
  · simp [TDOA.init, initAnchorPos, MAX_NR_ANCHORS]
  · intro h
    have := congrArg Vec3.x h
    norm_num at this

/-- C4: when the external solver reports a non-success status (here
`maxiter_exceeded`), `MPC::Solve` still returns the actuation pair extracted from
the solver's solution vector: the `ok` flag is computed but never consulted. -/
theorem solve_returns_actuation_on_failure :
    (MPC_Solve (α := ℚ) id id id id
        (fun _ _ _ _ _ _ =>
          { status := SolveStatus.maxiter_exceeded
            x := fun i => if i = delta_start then 7 else if i = v_start then 8 else 0 })
        (fun _ => 0) (fun _ => 0)).result = [7, 8]
      ∧ SolveStatus.maxiter_exceeded ≠ SolveStatus.success := by
  refine ⟨?_, by decide⟩
  rfl

/-- Entrywise form of the covariance update: for symmetric `P`,
`((I − K·H)·P) i j = P i j − (P·Hᵀ)ᵢ (P·Hᵀ)ⱼ / (H·P·Hᵀ + σ²)`. -/
theorem scalarUpdate_P_apply (st : TDOAState ℝ) (H : Fin 6 → ℝ) (r σ : ℝ)
    (hsym : st.P.transpose = st.P) (i j : Fin 6) :
    (stateEstimatorScalarUpdate st H r σ).P i j
      = st.P i j
        - st.P.mulVec H i * st.P.mulVec H j
            / (Matrix.dotProduct H (st.P.mulVec H) + σ * σ) := by
  have hPsymm : ∀ k l : Fin 6, st.P k l = st.P l k := by
    intro k l
    conv_lhs => rw [← hsym]
    rw [Matrix.transpose_apply]
  have hinner : (Finset.univ.sum fun k => H k * st.P k j) = st.P.mulVec H j := by
    unfold Matrix.mulVec Matrix.dotProduct
    exact Finset.sum_congr rfl fun k _ => by rw [hPsymm k j, mul_comm]
  simp only [stateEstimatorScalarUpdate]
  rw [Matrix.sub_mul, Matrix.one_mul, Matrix.sub_apply, Matrix.mul_apply]
  simp only [Matrix.vecMulVec_apply, mul_assoc]
  rw [← Finset.mul_sum, hinner, div_mul_eq_mul_div]

/-- C8: a single scalar update with residual 0 on a symmetric positive-semidefinite
covariance with positive innovation variance leaves the state vector unchanged and
does not increase any diagonal entry of the covariance. -/
theorem scalarUpdate_zero_residual (st : TDOAState ℝ) (H : Fin 6 → ℝ) (σ : ℝ)
    (hP : st.P.PosSemidef)
    (hpos : 0 < Matrix.dotProduct H (st.P.mulVec H) + σ ^ 2) :
    (stateEstimatorScalarUpdate st H 0 σ).S = st.S
      ∧ ∀ i, (stateEstimatorScalarUpdate st H 0 σ).P i i ≤ st.P i i := by
  constructor
  · funext i
    show st.S i + _ * 0 = st.S i
    rw [mul_zero, add_zero]
  · intro i
    rw [scalarUpdate_P_apply st H 0 σ (posSemidef_transpose_eq hP) i i]
    have hpos' : 0 < Matrix.dotProduct H (st.P.mulVec H) + σ * σ := by
      rw [← pow_two σ]
      exact hpos
    have hdiv : 0 ≤ st.P.mulVec H i * st.P.mulVec H i
        / (Matrix.dotProduct H (st.P.mulVec H) + σ * σ) :=
      div_nonneg (mul_self_nonneg _) (le_of_lt hpos')
    linarith

/-- Witness for C8 at a concrete state with zero covariance and unit noise. -/
theorem scalarUpdate_zero_residual_witness :
    W0.P.PosSemidef
      ∧ (0 < Matrix.dotProduct (fun _ => 1 : Fin 6 → ℝ) (W0.P.mulVec fun _ => 1)
          + (1 : ℝ) ^ 2)
      ∧ ((stateEstimatorScalarUpdate W0 (fun _ => 1) 0 1).S = W0.S
          ∧ ∀ i, (stateEstimatorScalarUpdate W0 (fun _ => 1) 0 1).P i i ≤ W0.P i i) := by
  have hP : W0.P.PosSemidef := Matrix.PosSemidef.zero
  have hpos : 0 < Matrix.dotProduct (fun _ => 1 : Fin 6 → ℝ) (W0.P.mulVec fun _ => 1)
      + (1 : ℝ) ^ 2 := by
    show (0:ℝ) < Matrix.dotProduct (fun _ => 1 : Fin 6 → ℝ)
        ((0 : Matrix (Fin 6) (Fin 6) ℝ).mulVec fun _ => 1) + (1 : ℝ) ^ 2
    rw [Matrix.zero_mulVec, Matrix.dotProduct_zero]
    norm_num
  exact ⟨hP, hpos, scalarUpdate_zero_residual W0 (fun _ => 1) 1 hP hpos⟩

/-- Cauchy–Schwarz for the bilinear form of a real positive-semidefinite matrix. -/
theorem psd_cauchy_schwarz {M : Matrix (Fin 6) (Fin 6) ℝ} (hM : M.PosSemidef)
    (u v : Fin 6 → ℝ) :
    Matrix.dotProduct u (M.mulVec v) ^ 2
      ≤ Matrix.dotProduct u (M.mulVec u) * Matrix.dotProduct v (M.mulVec v) := by
  have hsymm : Matrix.dotProduct v (M.mulVec u) = Matrix.dotProduct u (M.mulVec v) := by
    rw [Matrix.dotProduct_mulVec, ← Matrix.mulVec_transpose, posSemidef_transpose_eq hM,
      Matrix.dotProduct_comm]
  have key : ∀ t : ℝ,
      0 ≤ Matrix.dotProduct v (M.mulVec v) * (t * t)
        + 2 * Matrix.dotProduct u (M.mulVec v) * t + Matrix.dotProduct u (M.mulVec u) := by
    intro t
    have h0 := psd_dotProduct_nonneg hM (u + t • v)
    simp only [Matrix.mulVec_add, Matrix.mulVec_smul, Matrix.dotProduct_add,
      Matrix.add_dotProduct, Matrix.dotProduct_smul, Matrix.smul_dotProduct,
      smul_eq_mul] at h0
    rw [hsymm] at h0
    nlinarith [h0]
  have hd := discrim_le_zero key
  rw [discrim] at hd
  nlinarith [hd]

/-- C9: in exact arithmetic, both covariance-modifying operations — predict and the
generic scalar update with positive noise — map a symmetric positive-semidefinite
covariance to a symmetric matrix with nonnegative diagonal. -/
theorem covariance_update_invariants (st : TDOAState ℝ) (H : Fin 6 → ℝ) (r σ : ℝ)
    (hP : st.P.PosSemidef) (hσ : 0 < σ) :
    ((stateEstimatorPredict st).P.transpose = (stateEstimatorPredict st).P
        ∧ ∀ i, 0 ≤ (stateEstimatorPredict st).P i i)
      ∧ ((stateEstimatorScalarUpdate st H r σ).P.transpose
            = (stateEstimatorScalarUpdate st H r σ).P
          ∧ ∀ i, 0 ≤ (stateEstimatorScalarUpdate st H r σ).P i i) := by
  have hsym := posSemidef_transpose_eq hP
  have hPsymm : ∀ k l : Fin 6, st.P k l = st.P l k := by
    intro k l
    conv_lhs => rw [← hsym]
    rw [Matrix.transpose_apply]
  have hs : 0 < Matrix.dotProduct H (st.P.mulVec H) + σ * σ :=
    add_pos_of_nonneg_of_pos (psd_dotProduct_nonneg hP H) (mul_pos hσ hσ)
  constructor
  · have hpsd : (st.A * st.P * st.A.transpose).PosSemidef := by
      have h1 := hP.mul_mul_conjTranspose_same st.A
      rwa [Matrix.conjTranspose_eq_transpose_of_trivial] at h1
    exact ⟨posSemidef_transpose_eq hpsd, fun i => psd_diag_nonneg hpsd i⟩
  · constructor
    · funext i j
      rw [Matrix.transpose_apply, scalarUpdate_P_apply st H r σ hsym j i,
        scalarUpdate_P_apply st H r σ hsym i j, hPsymm j i, mul_comm]
    · intro i
      rw [scalarUpdate_P_apply st H r σ hsym i i]
      have hcs : st.P.mulVec H i ^ 2
          ≤ st.P i i * Matrix.dotProduct H (st.P.mulVec H) := by
        have h1 := psd_cauchy_schwarz hP (Pi.single i 1) H
        simpa [Matrix.mulVec_single, Matrix.single_dotProduct] using h1
      rw [sub_nonneg, div_le_iff₀ hs]
      nlinarith [psd_diag_nonneg hP i, mul_pos hσ hσ, hcs]

/-- Witness for C9 at a concrete state with zero covariance and unit noise. -/
theorem covariance_update_invariants_witness :
    W0.P.PosSemidef ∧ (0 : ℝ) < 1
      ∧ (((stateEstimatorPredict W0).P.transpose = (stateEstimatorPredict W0).P
            ∧ ∀ i, 0 ≤ (stateEstimatorPredict W0).P i i)
          ∧ ((stateEstimatorScalarUpdate W0 (fun _ => 1) 0 1).P.transpose
                = (stateEstimatorScalarUpdate W0 (fun _ => 1) 0 1).P
              ∧ ∀ i, 0 ≤ (stateEstimatorScalarUpdate W0 (fun _ => 1) 0 1).P i i)) := by
  have hP : W0.P.PosSemidef := Matrix.PosSemidef.zero
  exact ⟨hP, by norm_num,
    covariance_update_invariants W0 (fun _ => 1) 0 1 hP (by norm_num)⟩

/-- C2: for anchors whose stored positions differ from the current position
estimate, `scalarTDOADistUpdate` computes the Euclidean distances from the current
estimate to both anchors, predicts the range difference `d(An) − d(Ar)`, forms the
residual `measured − predicted`, builds the 1×6 Jacobian whose only nonzero entries
are the position columns `(x−x_other)/d_other − (x−x_ref)/d_ref` (and likewise for
y, z), and performs exactly one generic scalar update with this row, this residual
and the configured noise standard deviation. -/
theorem tdoaDistUpdate_spec (st : TDOAState ℝ) (Ar An : ℕ) (m : ℝ)
    (hAn : getLocation st ≠ st.anchorPosition ((An : ℕ) : ℤ))
    (hAr : getLocation st ≠ st.anchorPosition ((Ar : ℕ) : ℤ)) :
    scalarTDOADistUpdate Real.sqrt st Ar An m
        = stateEstimatorScalarUpdate st
            (tdoaJacobian Real.sqrt st (Ar : ℤ) (An : ℤ))
            (m - (tdoaDist Real.sqrt st (An : ℤ) - tdoaDist Real.sqrt st (Ar : ℤ)))
            st.stdDev
      ∧ (∀ a : ℤ, tdoaDist Real.sqrt st a
          = Real.sqrt ((st.S STATE_X - (st.anchorPosition a).x) ^ 2
              + (st.S STATE_Y - (st.anchorPosition a).y) ^ 2
              + (st.S STATE_Z - (st.anchorPosition a).z) ^ 2))
      ∧ tdoaJacobian Real.sqrt st (Ar : ℤ) (An : ℤ) STATE_X
          = (st.S STATE_X - (st.anchorPosition (An : ℤ)).x)
              / tdoaDist Real.sqrt st (An : ℤ)
            - (st.S STATE_X - (st.anchorPosition (Ar : ℤ)).x)
              / tdoaDist Real.sqrt st (Ar : ℤ)
      ∧ tdoaJacobian Real.sqrt st (Ar : ℤ) (An : ℤ) STATE_Y
          = (st.S STATE_Y - (st.anchorPosition (An : ℤ)).y)
              / tdoaDist Real.sqrt st (An : ℤ)
            - (st.S STATE_Y - (st.anchorPosition (Ar : ℤ)).y)
              / tdoaDist Real.sqrt st (Ar : ℤ)
      ∧ tdoaJacobian Real.sqrt st (Ar : ℤ) (An : ℤ) STATE_Z
          = (st.S STATE_Z - (st.anchorPosition (An : ℤ)).z)
              / tdoaDist Real.sqrt st (An : ℤ)
            - (st.S STATE_Z - (st.anchorPosition (Ar : ℤ)).z)
              / tdoaDist Real.sqrt st (Ar : ℤ)
      ∧ tdoaJacobian Real.sqrt st (Ar : ℤ) (An : ℤ) STATE_VX = 0
      ∧ tdoaJacobian Real.sqrt st (Ar : ℤ) (An : ℤ) STATE_VY = 0
      ∧ tdoaJacobian Real.sqrt st (Ar : ℤ) (An : ℤ) STATE_VZ = 0 :=
  ⟨rfl, fun _ => rfl, rfl, rfl, rfl, rfl, rfl, rfl⟩

/-- Witness for C2: the constructor state and the hard-coded anchors 0 and 1. -/
theorem tdoaDistUpdate_spec_witness :
    (getLocation (TDOA.init : TDOAState ℝ)
        ≠ (TDOA.init : TDOAState ℝ).anchorPosition (((1 : ℕ) : ℕ) : ℤ))
      ∧ (getLocation (TDOA.init : TDOAState ℝ)
          ≠ (TDOA.init : TDOAState ℝ).anchorPosition (((0 : ℕ) : ℕ) : ℤ))
      ∧ scalarTDOADistUpdate Real.sqrt (TDOA.init : TDOAState ℝ) 0 1 0
        = stateEstimatorScalarUpdate (TDOA.init : TDOAState ℝ)
            (tdoaJacobian Real.sqrt (TDOA.init : TDOAState ℝ) ((0 : ℕ) : ℤ) ((1 : ℕ) : ℤ))
            (0 - (tdoaDist Real.sqrt (TDOA.init : TDOAState ℝ) ((1 : ℕ) : ℤ)
              - tdoaDist Real.sqrt (TDOA.init : TDOAState ℝ) ((0 : ℕ) : ℤ)))
            (TDOA.init : TDOAState ℝ).stdDev := by
  have h1 : getLocation (TDOA.init : TDOAState ℝ)
      ≠ (TDOA.init : TDOAState ℝ).anchorPosition (((1 : ℕ) : ℕ) : ℤ) := by
    simp only [getLocation, TDOA.init, initAnchorPos, STATE_X, STATE_Y, STATE_Z]
    norm_num
  have h0 : getLocation (TDOA.init : TDOAState ℝ)
      ≠ (TDOA.init : TDOAState ℝ).anchorPosition (((0 : ℕ) : ℕ) : ℤ) := by
    simp only [getLocation, TDOA.init, initAnchorPos, STATE_X, STATE_Y, STATE_Z]
    norm_num
  exact ⟨h1, h0, (tdoaDistUpdate_spec (TDOA.init : TDOAState ℝ) 0 1 0 h1 h0).1⟩

/-- Under the claim's distinctness precondition the predicted distance is nonzero. -/
theorem tdoaDist_ne_zero {st : TDOAState ℝ} {a : ℤ}
    (h : getLocation st ≠ st.anchorPosition a) : tdoaDist Real.sqrt st a ≠ 0 := by
  have hnn : 0 ≤ tdoaSqDist st a := by unfold tdoaSqDist; positivity
  rcases eq_or_lt_of_le hnn with heq | hlt
  · exfalso
    apply h
    have heq' : tdoaSqDist st a = 0 := heq.symm
    unfold tdoaSqDist at heq'
    have hx := sq_nonneg (st.S STATE_X - (st.anchorPosition a).x)
    have hy := sq_nonneg (st.S STATE_Y - (st.anchorPosition a).y)
    have hz := sq_nonneg (st.S STATE_Z - (st.anchorPosition a).z)
    have hx0 : st.S STATE_X - (st.anchorPosition a).x = 0 :=
      sq_eq_zero_iff.mp (by linarith)
    have hy0 : st.S STATE_Y - (st.anchorPosition a).y = 0 :=
      sq_eq_zero_iff.mp (by linarith)
    have hz0 : st.S STATE_Z - (st.anchorPosition a).z = 0 :=
      sq_eq_zero_iff.mp (by linarith)
    exact Vec3.ext (sub_eq_zero.mp hx0) (sub_eq_zero.mp hy0) (sub_eq_zero.mp hz0)
  · unfold tdoaDist
    exact ne_of_gt (Real.sqrt_pos.mpr hlt)

/-- C10: `scalarTDOADistUpdate` guards none of its denominators; under the claim's
preconditions — current estimate distinct from both anchors' stored positions,
positive-semidefinite covariance, nonzero noise standard deviation — every
denominator in a full update call is nonzero: both predicted distances and the
innovation variance. -/
theorem tdoaDistUpdate_denominators_nonzero (st : TDOAState ℝ) (Ar An : ℕ)
    (hAn : getLocation st ≠ st.anchorPosition ((An : ℕ) : ℤ))
    (hAr : getLocation st ≠ st.anchorPosition ((Ar : ℕ) : ℤ))
    (hP : st.P.PosSemidef) (hσ : st.stdDev ≠ 0) :
    tdoaDist Real.sqrt st (An : ℤ) ≠ 0
      ∧ tdoaDist Real.sqrt st (Ar : ℤ) ≠ 0
      ∧ Matrix.dotProduct (tdoaJacobian Real.sqrt st (Ar : ℤ) (An : ℤ))
          (st.P.mulVec (tdoaJacobian Real.sqrt st (Ar : ℤ) (An : ℤ)))
          + st.stdDev * st.stdDev ≠ 0 := by
  have h1 : 0 ≤ Matrix.dotProduct (tdoaJacobian Real.sqrt st (Ar : ℤ) (An : ℤ))
      (st.P.mulVec (tdoaJacobian Real.sqrt st (Ar : ℤ) (An : ℤ))) :=
    psd_dotProduct_nonneg hP _
  have h2 : 0 < st.stdDev * st.stdDev := mul_self_pos.mpr hσ
  exact ⟨tdoaDist_ne_zero hAn, tdoaDist_ne_zero hAr,
    ne_of_gt (add_pos_of_nonneg_of_pos h1 h2)⟩

/-- Witness for C10: the constructor state and the hard-coded anchors 0 and 1. -/
theorem tdoaDistUpdate_denominators_nonzero_witness :
    (getLocation (TDOA.init : TDOAState ℝ)
        ≠ (TDOA.init : TDOAState ℝ).anchorPosition (((1 : ℕ) : ℕ) : ℤ))
      ∧ (getLocation (TDOA.init : TDOAState ℝ)
          ≠ (TDOA.init : TDOAState ℝ).anchorPosition (((0 : ℕ) : ℕ) : ℤ))
      ∧ (TDOA.init : TDOAState ℝ).P.PosSemidef
      ∧ (TDOA.init : TDOAState ℝ).stdDev ≠ 0
      ∧ (tdoaDist Real.sqrt (TDOA.init : TDOAState ℝ) ((1 : ℕ) : ℤ) ≠ 0
          ∧ tdoaDist Real.sqrt (TDOA.init : TDOAState ℝ) ((0 : ℕ) : ℤ) ≠ 0
          ∧ Matrix.dotProduct
              (tdoaJacobian Real.sqrt (TDOA.init : TDOAState ℝ) ((0 : ℕ) : ℤ) ((1 : ℕ) : ℤ))
              ((TDOA.init : TDOAState ℝ).P.mulVec
                (tdoaJacobian Real.sqrt (TDOA.init : TDOAState ℝ) ((0 : ℕ) : ℤ) ((1 : ℕ) : ℤ)))
              + (TDOA.init : TDOAState ℝ).stdDev * (TDOA.init : TDOAState ℝ).stdDev ≠ 0) := by
  have h1 : getLocation (TDOA.init : TDOAState ℝ)
      ≠ (TDOA.init : TDOAState ℝ).anchorPosition (((1 : ℕ) : ℕ) : ℤ) := by
    simp only [getLocation, TDOA.init, initAnchorPos, STATE_X, STATE_Y, STATE_Z]
    norm_num
  have h0 : getLocation (TDOA.init : TDOAState ℝ)
      ≠ (TDOA.init : TDOAState ℝ).anchorPosition (((0 : ℕ) : ℕ) : ℤ) := by
    simp only [getLocation, TDOA.init, initAnchorPos, STATE_X, STATE_Y, STATE_Z]
    norm_num
  have hP : (TDOA.init : TDOAState ℝ).P.PosSemidef := by
    rw [init_P_eq_diagonal]
    refine Matrix.PosSemidef.diagonal (Pi.le_def.mpr ?_)
    intro i
    fin_cases i
    · show (0 : ℝ) ≤ 100 ^ 2
      norm_num
    · show (0 : ℝ) ≤ 100 ^ 2
      norm_num
    · show (0 : ℝ) ≤ 1 ^ 2
      norm_num
    · show (0 : ℝ) ≤ 0.01 ^ 2
      norm_num
    · show (0 : ℝ) ≤ 0.01 ^ 2
      norm_num
    · show (0 : ℝ) ≤ 0.01 ^ 2
      norm_num
  have hσ : (TDOA.init : TDOAState ℝ).stdDev ≠ 0 := by
    show (0.15 : ℝ) ≠ 0
    norm_num
  exact ⟨h1, h0, hP, hσ,
    tdoaDistUpdate_denominators_nonzero (TDOA.init : TDOAState ℝ) 0 1 h1 h0 hP hσ⟩

/-- C3: for every horizon step `t = 1..N−1`, the equality constraint rows that
`FG_eval` writes at `fg[1 + <field>_start + t]` vanish exactly when the
bicycle-model relations of the spec hold, with `polyF` the degree-3 reference
polynomial supplied by the caller and `psides` the `atan` of its slope. -/
theorem mpc_dynamics_constraints (coeffs : Fin 4 → ℝ) (vars : ℕ → ℝ) (t : ℕ)
    (h1 : 1 ≤ t) (h2 : t < N) :
    (FG_eval Real.cos Real.sin Real.tan Real.arctan coeffs vars (1 + x_start + t) = 0
        ↔ vars (x_start + t)
          = vars (x_start + t - 1)
            + vars (v_start + t - 1) * Real.cos (vars (psi_start + t - 1)) * dt ℝ)
      ∧ (FG_eval Real.cos Real.sin Real.tan Real.arctan coeffs vars (1 + y_start + t) = 0
        ↔ vars (y_start + t)
          = vars (y_start + t - 1)
            + vars (v_start + t - 1) * Real.sin (vars (psi_start + t - 1)) * dt ℝ)
      ∧ (FG_eval Real.cos Real.sin Real.tan Real.arctan coeffs vars (1 + psi_start + t) = 0
        ↔ vars (psi_start + t)
          = vars (psi_start + t - 1)
            + vars (v_start + t - 1) * Real.tan (vars (delta_start + t - 1)) * dt ℝ / lr ℝ)
      ∧ (FG_eval Real.cos Real.sin Real.tan Real.arctan coeffs vars (1 + cte_start + t) = 0
        ↔ vars (cte_start + t)
          = (polyF coeffs (vars (x_start + t - 1)) - vars (y_start + t - 1))
            + vars (v_start + t - 1) * Real.sin (vars (epsi_start + t - 1)) * dt ℝ)
      ∧ (FG_eval Real.cos Real.sin Real.tan Real.arctan coeffs vars (1 + epsi_start + t) = 0
        ↔ vars (epsi_start + t)
          = (vars (psi_start + t - 1)
              - psides Real.arctan coeffs (vars (x_start + t - 1)))
            + vars (v_start + t - 1) * vars (delta_start + t - 1) * dt ℝ / lr ℝ) := by
  have h2' : t < 10 := h2
  interval_cases t <;>
    · simp [FG_eval, fgX, fgY, fgPsi, fgCte, fgEpsi, x_start, y_start, psi_start,
        cte_start, epsi_start, v_start, delta_start, N, sub_eq_zero]
      try rw [div_mul_eq_mul_div]
      try rfl

/-- Witness for C3 at `t = 1` with all-zero decision variables and coefficients. -/
theorem mpc_dynamics_constraints_witness :
    (1 : ℕ) ≤ 1 ∧ (1 : ℕ) < N
      ∧ ((FG_eval Real.cos Real.sin Real.tan Real.arctan (fun _ => 0) (fun _ => 0)
            (1 + x_start + 1) = 0
          ↔ (0 : ℝ) = 0 + 0 * Real.cos 0 * dt ℝ)
        ∧ (FG_eval Real.cos Real.sin Real.tan Real.arctan (fun _ => 0) (fun _ => 0)
            (1 + y_start + 1) = 0
          ↔ (0 : ℝ) = 0 + 0 * Real.sin 0 * dt ℝ)
        ∧ (FG_eval Real.cos Real.sin Real.tan Real.arctan (fun _ => 0) (fun _ => 0)
            (1 + psi_start + 1) = 0
          ↔ (0 : ℝ) = 0 + 0 * Real.tan 0 * dt ℝ / lr ℝ)
        ∧ (FG_eval Real.cos Real.sin Real.tan Real.arctan (fun _ => 0) (fun _ => 0)
            (1 + cte_start + 1) = 0
          ↔ (0 : ℝ) = (polyF (fun _ => 0) 0 - 0) + 0 * Real.sin 0 * dt ℝ)
        ∧ (FG_eval Real.cos Real.sin Real.tan Real.arctan (fun _ => 0) (fun _ => 0)
            (1 + epsi_start + 1) = 0
          ↔ (0 : ℝ) = (0 - psides Real.arctan (fun _ => 0) 0) + 0 * 0 * dt ℝ / lr ℝ)) :=
  ⟨le_refl 1, by norm_num [N],
    mpc_dynamics_constraints (fun _ => 0) (fun _ => 0) 1 (le_refl 1) (by norm_num [N])⟩

end Decawave
